import Mathlib

/-!
Shallow embedding of the LR CRUD service: the side-cache (`app/cache.py`),
the cache-aside read/write services (`app/services/user_service.py`,
`app/services/product_service.py`), the entity-store repositories
(`app/repositories/*.py`) and the order placement workflow
(`app/services/order_service.py`).

Machine numbers: prices are Python floats used as exact decimals in the
source and its tests; they are modelled as `Rat`.  Quantities and stock
counters are Python `int`, modelled as `Int` (they may go negative).
Timestamps (`created_at` / `updated_at`) are opaque clock readings,
modelled as `Nat` supplied by the caller.  Generated ids (uuid4) are
modelled as fresh strings drawn from a counter.
-/

namespace LR

/-! ## Entities (models.py; `stock_quantity` added by migration
38f78eb5b6ac_add_stock_quantity_to_products) -/

/-- Row type `User`: id, unique username, unique email, optional description,
timestamps (models.py `class User`). -/
structure User where
  id : String
  username : String
  email : String
  description : Option String
  created_at : Nat
  updated_at : Nat
deriving Repr, DecidableEq

/-- Row type `Product`: id, name, optional description, price, stock_quantity,
timestamps (models.py `class Product` plus the stock_quantity migration). -/
structure Product where
  id : String
  name : String
  description : Option String
  price : Rat
  stock_quantity : Int
  created_at : Nat
  updated_at : Nat
deriving Repr, DecidableEq

/-- Modelled from the spec: LR's own `models.py` is not among the sources
(only the ЛР2 variant is). Spec §3 lists the Order entity's fields as
id, user_id, delivery_address_id, created_at, updated_at — no total field —
matching the ЛР2 `class Order` and the `OrderResponse` schema, and matching
`OrderRepository.create`, which constructs `Order(user_id=..,
delivery_address_id=..)` and sets nothing else. -/
structure Order where
  id : String
  user_id : String
  delivery_address_id : String
  created_at : Nat
  updated_at : Nat
deriving Repr, DecidableEq

/-- Row type `OrderItem` (models.py `class OrderItem`). -/
structure OrderItem where
  id : String
  order_id : String
  product_id : String
  quantity : Int
  created_at : Nat
deriving Repr, DecidableEq

/-- The relational store: one table per entity, rows in insertion order. -/
structure Store where
  users : List User
  products : List Product
  orders : List Order
  order_items : List OrderItem
deriving Repr, DecidableEq

/-- Query `SELECT .. WHERE User.id == user_id` with `scalar_one_or_none`
(user_repository.get_by_id): first row whose id matches, if any. -/
def findUser : List User → String → Option User
  | [], _ => none
  | u :: us, user_id => if u.id = user_id then some u else findUser us user_id

/-- Query `SELECT .. WHERE Product.id == product_id` with `scalar_one_or_none`
(product_repository.get_by_id): first row whose id matches, if any. -/
def findProduct : List Product → String → Option Product
  | [], _ => none
  | p :: ps, product_id => if p.id = product_id then some p else findProduct ps product_id

/-! ## Side-cache (app/cache.py)

The redis client is modelled as an oracle giving, per call, either the
reply or one of the failure modes the source catches
(`asyncio.TimeoutError`, `redis.RedisError`, `ConnectionError`, `OSError`);
a deadline expiry and a transport error are both failure outcomes. -/

/-- Outcome of one raw redis call: a reply, or an injected failure. -/
inductive RedisOutcome (α : Type) where
  | ok (val : α)
  | timeout
  | redisError
  | connectionError
  | osError
deriving Repr, DecidableEq

/-- Holds `true` on every non-`ok` outcome. -/
def RedisOutcome.isFailure {α : Type} : RedisOutcome α → Bool
  | .ok _ => false
  | _ => true

/-- The raw redis client used by `CacheService`: per-operation replies or
injected failures. `getRaw` replies with the stored bytes (decoded), if
any. -/
structure RedisClient where
  getRaw : String → RedisOutcome (Option String)
  setexRaw : String → Nat → String → RedisOutcome Bool
  deleteRaw : String → RedisOutcome Nat
  pingRaw : RedisOutcome Bool

namespace CacheService

/-- Method `CacheService.get` (cache.py lines 22-36): on any caught failure
return `None`; a falsy (empty) stored value also yields `None`. -/
def get (c : RedisClient) (key : String) : Option String :=
  match c.getRaw key with
  | .ok (some v) => if v.isEmpty then none else some v
  | .ok none => none
  | _ => none

/-- Method `CacheService.set` (cache.py lines 38-56): `setex`, `True` on success,
`False` on any caught failure. -/
def set (c : RedisClient) (key : String) (value : String) (ttl : Nat) : Bool :=
  match c.setexRaw key ttl value with
  | .ok _ => true
  | _ => false

/-- Method `CacheService.delete` (cache.py lines 58-72): `True` on success (the
reply counts deleted keys; 0 is still a success), `False` on any caught
failure. -/
def delete (c : RedisClient) (key : String) : Bool :=
  match c.deleteRaw key with
  | .ok _ => true
  | _ => false

/-- Method `CacheService.get_model` (cache.py lines 74-94): `parse` stands for
`json.loads` + `model_class(**data)`; every deserialization failure the
source catches (`JSONDecodeError`, `ValueError`, `TypeError`, `KeyError`)
is `parse v = none`. -/
def get_model {α : Type} (c : RedisClient) (parse : String → Option α)
    (key : String) : Option α :=
  match get c key with
  | some v => parse v
  | none => none

/-- Method `CacheService.set_model` (cache.py lines 96-112): `ser` stands for
`json.dumps(model.model_dump(), default=str)`; a serialization failure the
source catches (`TypeError`, `ValueError`, `AttributeError`) is
`ser m = none`. -/
def set_model {α : Type} (c : RedisClient) (ser : α → Option String)
    (key : String) (m : α) (ttl : Nat) : Bool :=
  match ser m with
  | some s => set c key s ttl
  | none => false

/-- Method `CacheService.ping` (cache.py lines 114-125). -/
def ping (c : RedisClient) : Bool :=
  match c.pingRaw with
  | .ok b => b
  | _ => false

end CacheService

/-- Constant `USER_CACHE_PREFIX` of cache.py. -/
def userCachePrefix : String := "user:"

/-- Constant `PRODUCT_CACHE_PREFIX` of cache.py. -/
def productCachePrefix : String := "product:"

/-- Constant `USER_CACHE_TTL` of cache.py. -/
def userCacheTtl : Nat := 3600

/-- Constant `PRODUCT_CACHE_TTL` of cache.py. -/
def productCacheTtl : Nat := 600

/-! ## Response projections (app/schemas) -/

/-- Schema `UserResponse` (schemas/user.py). -/
structure UserResponse where
  id : String
  username : String
  email : String
  description : Option String
  created_at : Nat
  updated_at : Nat
deriving Repr, DecidableEq

/-- Projection `UserResponse.model_validate(user)`. -/
def UserResponse.ofUser (u : User) : UserResponse :=
  ⟨u.id, u.username, u.email, u.description, u.created_at, u.updated_at⟩

/-- Schema `ProductResponse` (schemas/product.py). -/
structure ProductResponse where
  id : String
  name : String
  description : Option String
  price : Rat
  stock_quantity : Int
  created_at : Nat
  updated_at : Nat
deriving Repr, DecidableEq

/-- Projection `ProductResponse.model_validate(product)`. -/
def ProductResponse.ofProduct (p : Product) : ProductResponse :=
  ⟨p.id, p.name, p.description, p.price, p.stock_quantity, p.created_at, p.updated_at⟩

/-! ## Cache-aside read path (user_service.get_by_id, product_service.get_by_id)

The observable interactions of one read are recorded as a trace of
events, in the order the source performs them; `cacheGet`/`cacheSet`
record the attempt, whatever its outcome (failures are swallowed). -/

/-- One interaction of a service read with its collaborators. -/
inductive ReadEvent where
  | cacheGet (key : String)
  | storeGet (id : String)
  | cacheSet (key : String)
deriving Repr, DecidableEq

/-- Method `UserService.get_by_id` (user_service.py lines 32-68): read the store
first; on a hit, attempt a 500 ms-bounded cache write (outcome swallowed);
on a store miss, return `None` with no cache interaction. -/
def userGetById (S : Store) (user_id : String) : Option User × List ReadEvent :=
  match findUser S.users user_id with
  | some u => (some u, [.storeGet user_id, .cacheSet (userCachePrefix ++ user_id)])
  | none => (none, [.storeGet user_id])

/-- Method `ProductService.get_by_id` (product_service.py lines 33-67): first
`get_model` on the cache (its result abstracted as `cache key`, `none`
covering miss, corruption and failure alike); on a truthy cached value,
read the store and return the row if present; otherwise fall through to
the plain store read, populating the cache only on a store hit. -/
def productGetById (S : Store) (cache : String → Option ProductResponse)
    (product_id : String) : Option Product × List ReadEvent :=
  let key := productCachePrefix ++ product_id
  match cache key with
  | some _ =>
    match findProduct S.products product_id with
    | some p => (some p, [.cacheGet key, .storeGet product_id])
    | none =>
      -- cached hit but store miss: the early return is skipped and control
      -- falls through to the second store read (lines 58-67)
      match findProduct S.products product_id with
      | some p => (some p, [.cacheGet key, .storeGet product_id, .storeGet product_id,
          .cacheSet key])
      | none => (none, [.cacheGet key, .storeGet product_id, .storeGet product_id])
  | none =>
    match findProduct S.products product_id with
    | some p => (some p, [.cacheGet key, .storeGet product_id, .cacheSet key])
    | none => (none, [.cacheGet key, .storeGet product_id])

/-! ## Merge-patch updates (user_repository.update, product_repository.update)

`model_dump(exclude_unset=True)` keeps exactly the fields the caller
explicitly supplied; an explicitly supplied field is an outer `some`.
`description` is nullable, so an explicit `None` is `some none`.
On commit the ORM bumps `updated_at` (models.py: `onupdate=datetime.now`),
modelled by the `now` argument. -/

/-- Schema `UserUpdate` (schemas/user.py), with explicit presence. -/
structure UserUpdate where
  username : Option String
  email : Option String
  description : Option (Option String)
deriving Repr, DecidableEq

/-- Test for `update_data = user_data.model_dump(exclude_unset=True)` being empty. -/
def UserUpdate.isEmpty (d : UserUpdate) : Bool :=
  d.username.isNone && d.email.isNone && d.description.isNone

/-- Schema `ProductUpdate` (schemas/product.py), with explicit presence. -/
structure ProductUpdate where
  name : Option String
  description : Option (Option String)
  price : Option Rat
  stock_quantity : Option Int
deriving Repr, DecidableEq

/-- Test for `update_data = product_data.model_dump(exclude_unset=True)` being empty. -/
def ProductUpdate.isEmpty (d : ProductUpdate) : Bool :=
  d.name.isNone && d.description.isNone && d.price.isNone && d.stock_quantity.isNone

/-- Method `UserRepository.update` (user_repository.py lines 123-162): absent id
gives `None`; an empty partial returns the row unchanged without touching
the store; otherwise the present fields are assigned, the commit bumps
`updated_at`, and the updated row is returned. -/
def userRepoUpdate (users : List User) (user_id : String) (d : UserUpdate)
    (now : Nat) : Option (List User × User) :=
  match findUser users user_id with
  | none => none
  | some u =>
    if d.isEmpty then some (users, u)
    else
      let u' : User :=
        { u with
          username := d.username.getD u.username
          email := d.email.getD u.email
          description := d.description.getD u.description
          updated_at := now }
      some (users.map (fun v => if v.id = user_id then u' else v), u')

/-- Method `ProductRepository.update` (product_repository.py lines 82-121): same
shape as the user repository. -/
def productRepoUpdate (products : List Product) (product_id : String)
    (d : ProductUpdate) (now : Nat) : Option (List Product × Product) :=
  match findProduct products product_id with
  | none => none
  | some p =>
    if d.isEmpty then some (products, p)
    else
      let p' : Product :=
        { p with
          name := d.name.getD p.name
          description := d.description.getD p.description
          price := d.price.getD p.price
          stock_quantity := d.stock_quantity.getD p.stock_quantity
          updated_at := now }
      some (products.map (fun v => if v.id = product_id then p' else v), p')

/-! ## Cache-aside write path (user_service.update, product_service.update) -/

/-- One interaction of a service update with its collaborators. -/
inductive WriteEvent where
  | storeUpdate (id : String)
  | cacheDelete (key : String)
  | cacheSet (key : String)
deriving Repr, DecidableEq

/-- Method `UserService.update` (user_service.py lines 105-143): store update
first; `None` raises `ValueError` with no cache interaction; on success a
best-effort cache delete of `user:<id>` (outcome swallowed). -/
def userServiceUpdate (users : List User) (user_id : String) (d : UserUpdate)
    (now : Nat) : Option (List User × User) × List WriteEvent :=
  match userRepoUpdate users user_id d now with
  | none => (none, [.storeUpdate user_id])
  | some r => (some r, [.storeUpdate user_id, .cacheDelete (userCachePrefix ++ user_id)])

/-- Method `ProductService.update` (product_service.py lines 100-131): store
update first; `None` raises `ValueError` with no cache interaction; on
success the cache entry `product:<id>` is overwritten (`set_model`) with
the updated row's projection. -/
def productServiceUpdate (products : List Product) (product_id : String)
    (d : ProductUpdate) (now : Nat) :
    Option (List Product × Product) × List WriteEvent :=
  match productRepoUpdate products product_id d now with
  | none => (none, [.storeUpdate product_id])
  | some r => (some r, [.storeUpdate product_id,
      .cacheSet (productCachePrefix ++ product_id)])

/-! ## Order placement workflow (order_service.create_order,
order_repository.create)

Durability is tracked explicitly: `createOrder` returns, besides its
result, the list of committed snapshots of the store, in commit order.
Two commits happen on the success path: one inside
`OrderRepository.create` (order_repository.py line 82, covering the order
row and every item row), and the service's final `session.commit()`
(order_service.py line 126, covering the stock decrements). -/

/-- Schema `OrderItemCreate` (schemas/order.py). -/
structure OrderItemCreate where
  product_id : String
  quantity : Int
deriving Repr, DecidableEq

/-- Schema `OrderCreate` (schemas/order.py). -/
structure OrderCreate where
  user_id : String
  delivery_address_id : String
  items : List OrderItemCreate
deriving Repr, DecidableEq

/-- The typed rejection the workflow raises (the three distinct
`ValueError` messages of order_service.py lines 100, 107, 111). -/
inductive OrderError where
  | userNotFound (user_id : String)
  | productNotFound (product_id : String)
  | insufficientStock
deriving Repr, DecidableEq

/-- The pricing/validation loop (order_service.py lines 103-113):
`total_amount` starts at `0.0` and accumulates `product.price *
item.quantity` in submission order; a missing product or an insufficient
stock short-circuits with the corresponding error. -/
def validateItems (products : List Product) (acc : Rat) :
    List OrderItemCreate → Except OrderError Rat
  | [] => .ok acc
  | i :: rest =>
    match findProduct products i.product_id with
    | none => .error (.productNotFound i.product_id)
    | some p =>
      if p.stock_quantity < i.quantity then .error .insufficientStock
      else validateItems products (acc + p.price * (i.quantity : Rat)) rest

/-- Item rows added by the loop of `OrderRepository.create`
(order_repository.py lines 74-80), one per line item, in submission
order; generated uuids are modelled by the `k` counter. -/
def itemRows (order_id : String) (now : Nat) :
    List OrderItemCreate → Nat → List OrderItem
  | [], _ => []
  | i :: rest, k =>
    { id := "item-" ++ toString k
      order_id := order_id
      product_id := i.product_id
      quantity := i.quantity
      created_at := now } :: itemRows order_id now rest (k + 1)

/-- Fresh order row built by `OrderRepository.create` (order_repository.py
lines 66-69): only `user_id` and `delivery_address_id` come from the
request; id and timestamps are generated. -/
def freshOrder (order_data : OrderCreate) (nextId : Nat) (now : Nat) : Order :=
  { id := "order-" ++ toString nextId
    user_id := order_data.user_id
    delivery_address_id := order_data.delivery_address_id
    created_at := now
    updated_at := now }

/-- Method `OrderRepository.create` continued: the `total_amount` argument is
accepted but never stored (no field of the constructed `Order` receives
it); one item row is added per line item, in submission order, and the
single `session.commit()` at line 82 covers the order and all its items. -/
def orderRepoCreate (S : Store) (order_data : OrderCreate) (total_amount : Rat)
    (nextId : Nat) (now : Nat) : Store × Order × Nat :=
  let _ := total_amount  -- dropped by the source: no Order field receives it
  let order := freshOrder order_data nextId now
  ({ S with
      orders := S.orders ++ [order]
      order_items := S.order_items ++ itemRows order.id now order_data.items (nextId + 1) },
   order, nextId + 1 + order_data.items.length)

/-- One step of the stock-adjustment loop (order_service.py lines
119-122): re-fetch the product by id and, if present, decrement its
`stock_quantity` in place. -/
def decrementStock (products : List Product) (product_id : String) (q : Int) :
    List Product :=
  products.map (fun p =>
    if p.id = product_id then { p with stock_quantity := p.stock_quantity - q } else p)

/-- The whole stock-adjustment loop over the submitted items. -/
def decrementAll (products : List Product) (items : List OrderItemCreate) :
    List Product :=
  items.foldl (fun ps i => decrementStock ps i.product_id i.quantity) products

/-- A unit of work: the in-memory session view plus the uuid counter. -/
structure Session where
  mem : Store
  nextId : Nat
deriving Repr, DecidableEq

/-- Method `OrderService.create_order` (order_service.py lines 70-128).  Returns
the result (new session and created order, or the typed rejection) and
the trace of committed store snapshots.  Validation performs only reads;
the first commit happens inside `OrderRepository.create`, the second is
the service's final `session.commit()` after the in-memory stock
decrements. -/
def createOrder (sess : Session) (now : Nat) (order_data : OrderCreate) :
    Except OrderError (Session × Order) × List Store :=
  match findUser sess.mem.users order_data.user_id with
  | none => (.error (.userNotFound order_data.user_id), [])
  | some _ =>
    match validateItems sess.mem.products 0 order_data.items with
    | .error e => (.error e, [])
    | .ok total_amount =>
      let r := orderRepoCreate sess.mem order_data total_amount sess.nextId now
      let S1 := r.1
      let S2 := { S1 with products := decrementAll S1.products order_data.items }
      (.ok ({ mem := S2, nextId := r.2.2 }, r.2.1), [S1, S2])

/-- Wrapper running `create_order` as a state transformer: the session advances on
success and is left untouched by a rejection (the raised `ValueError`
aborts the request before any write). -/
def runOrder (sess : Session) (now : Nat) (order_data : OrderCreate) : Session :=
  match (createOrder sess now order_data).1 with
  | .ok (s, _) => s
  | .error _ => sess

/-- Sequential (non-interleaved) execution of a series of placements. -/
def runOrders (sess : Session) (now : Nat) (reqs : List OrderCreate) : Session :=
  reqs.foldl (fun s d => runOrder s now d) sess

/-- The store snapshot committed by `OrderRepository.create` inside a
successful `create_order`: the order row and all its item rows are added,
products untouched. -/
def firstCommit (sess : Session) (now : Nat) (d : OrderCreate) : Store :=
  { sess.mem with
      orders := sess.mem.orders ++ [freshOrder d sess.nextId now]
      order_items := sess.mem.order_items
        ++ itemRows (freshOrder d sess.nextId now).id now d.items (sess.nextId + 1) }

/-! ## Specification-side combinators (for stating the claims) -/

/-- Price of a line item's product in the store (0 when absent; only used
under a hypothesis that the product exists). -/
def priceOf (products : List Product) (i : OrderItemCreate) : Rat :=
  match findProduct products i.product_id with
  | some p => p.price
  | none => 0

/-- Sum of `product.price * item.quantity` over the submitted line items,
in submission order. -/
def itemsTotal (products : List Product) (items : List OrderItemCreate) : Rat :=
  (items.map (fun i => priceOf products i * (i.quantity : Rat))).sum

/-- Total quantity the submitted items order of one given product id. -/
def itemsQtySum (items : List OrderItemCreate) (pid : String) : Int :=
  ((items.filter (fun i => i.product_id = pid)).map OrderItemCreate.quantity).sum

/-! ## Concrete fixtures (used by counterexamples and witnesses) -/

/-- A user on file. -/
def demoUser : User := ⟨"u1", "alice", "alice@example.com", none, 0, 0⟩

/-- A product on file: price 10, five units in stock. -/
def demoProduct : Product := ⟨"p1", "Widget", none, 10, 5, 0, 0⟩

/-- A one-user, one-product store. -/
def demoStore : Store := ⟨[demoUser], [demoProduct], [], []⟩

/-- A cache holding a (stale-friendly) entry for every key. -/
def demoCache : String → Option ProductResponse :=
  fun _ => some (ProductResponse.ofProduct demoProduct)

/-- A session over the demo store. -/
def demoSess : Session := ⟨demoStore, 0⟩

/-- An order of two Widgets. -/
def demoReq : OrderCreate := ⟨"u1", "a1", [⟨"p1", 2⟩]⟩

/-- The order row `create_order` persists for `demoReq`. -/
def demoOrder : Order := ⟨"order-0", "u1", "a1", 0, 0⟩

/-- The item row `create_order` persists for `demoReq`. -/
def demoItemRow : OrderItem := ⟨"item-1", "order-0", "p1", 2, 0⟩

/-- The store state committed by `OrderRepository.create` for `demoReq`. -/
def demoS1 : Store := ⟨[demoUser], [demoProduct], [demoOrder], [demoItemRow]⟩

/-- The final committed store state for `demoReq`. -/
def demoS2 : Store :=
  ⟨[demoUser], [⟨"p1", "Widget", none, 10, 3, 0, 0⟩], [demoOrder], [demoItemRow]⟩

/-- The demo product at a different price (15), same stock. -/
def demoProductB : Product := ⟨"p1", "Widget", none, 15, 5, 0, 0⟩

/-- A session identical to `demoSess` except for the product's price. -/
def demoSessB : Session := ⟨⟨[demoUser], [demoProductB], [], []⟩, 0⟩

/-- The final committed store state for `demoReq` under `demoSessB`. -/
def demoS2B : Store :=
  ⟨[demoUser], [⟨"p1", "Widget", none, 15, 3, 0, 0⟩], [demoOrder], [demoItemRow]⟩

/-- An order of five Widgets (exactly the stock on hand). -/
def fiveReq : OrderCreate := ⟨"u1", "a1", [⟨"p1", 5⟩]⟩

/-- The store committed by the repository for `fiveReq`. -/
def fiveS1 : Store :=
  ⟨[demoUser], [demoProduct], [demoOrder], [⟨"item-1", "order-0", "p1", 5, 0⟩]⟩

/-- The final committed store for `fiveReq`: stock 0. -/
def fiveS2 : Store :=
  ⟨[demoUser], [⟨"p1", "Widget", none, 10, 0, 0, 0⟩], [demoOrder],
    [⟨"item-1", "order-0", "p1", 5, 0⟩]⟩

/-- The store committed for an empty-items order: the order row alone. -/
def emptyS1 : Store := ⟨[demoUser], [demoProduct], [demoOrder], []⟩

/-- An order with an empty items list. -/
def emptyReq : OrderCreate := ⟨"u1", "a1", []⟩

/-- An order with one line item of negative quantity. -/
def negReq : OrderCreate := ⟨"u1", "a1", [⟨"p1", -2⟩]⟩

/-- An order naming a user not on file. -/
def ghostReq : OrderCreate := ⟨"ghost", "a1", [⟨"p1", 1⟩]⟩

/-- An order with two line items for the same product, each passing the
sufficiency check against the pre-order stock. -/
def dupReq : OrderCreate := ⟨"u1", "a1", [⟨"p1", 3⟩, ⟨"p1", 3⟩]⟩

/-- A redis client whose every operation fails. -/
def failClient : RedisClient :=
  { getRaw := fun _ => .timeout
    setexRaw := fun _ _ _ => .connectionError
    deleteRaw := fun _ => .redisError
    pingRaw := .osError }

/-- A reachable redis client holding a malformed payload under every key. -/
def malformedClient : RedisClient :=
  { getRaw := fun _ => .ok (some "not-json")
    setexRaw := fun _ _ _ => .ok true
    deleteRaw := fun _ => .ok 1
    pingRaw := .ok true }

/-! ## Helper lemmas -/

/-- A `find?`-style lookup on a duplicate-free table returns the member
row itself. -/
theorem findProduct_self (products : List Product)
    (hids : (products.map Product.id).Nodup) (p : Product) (hp : p ∈ products) :
    findProduct products p.id = some p := by
  induction products with
  | nil => cases hp
  | cons q rest ih =>
    simp only [List.map_cons, List.nodup_cons] at hids
    by_cases hqp : q.id = p.id
    · have hpq : p = q := by
        rcases List.mem_cons.mp hp with h | h
        · exact h
        · exact absurd (hqp ▸ List.mem_map.mpr ⟨p, h, rfl⟩) hids.1
      subst hpq
      simp [findProduct]
    · have hp' : p ∈ rest := by
        rcases List.mem_cons.mp hp with h | h
        · subst h; exact absurd rfl hqp
        · exact h
      simpa [findProduct, hqp] using ih hids.2 hp'

/-- Unfolding step for `itemsQtySum`. -/
theorem itemsQtySum_cons (i : OrderItemCreate) (rest : List OrderItemCreate)
    (pid : String) :
    itemsQtySum (i :: rest) pid =
      (if i.product_id = pid then i.quantity else 0) + itemsQtySum rest pid := by
  by_cases h : i.product_id = pid <;> simp [itemsQtySum, List.filter_cons, h]

/-- Items never mentioning a product id order zero of it. -/
theorem itemsQtySum_of_not_mem (items : List OrderItemCreate) (pid : String)
    (h : pid ∉ items.map OrderItemCreate.product_id) : itemsQtySum items pid = 0 := by
  induction items with
  | nil => simp [itemsQtySum]
  | cons i rest ih =>
    simp only [List.map_cons, List.mem_cons] at h
    push_neg at h
    rw [itemsQtySum_cons, if_neg (fun he => h.1 he.symm), ih h.2, add_zero]

/-- With pairwise-distinct product ids, at most one line item feeds the
ordered quantity of a given product. -/
theorem itemsQtySum_nodup (items : List OrderItemCreate) (pid : String)
    (h : (items.map OrderItemCreate.product_id).Nodup) :
    itemsQtySum items pid = 0
      ∨ ∃ i ∈ items, i.product_id = pid ∧ itemsQtySum items pid = i.quantity := by
  induction items with
  | nil => left; simp [itemsQtySum]
  | cons i rest ih =>
    simp only [List.map_cons, List.nodup_cons] at h
    by_cases hpe : i.product_id = pid
    · right
      refine ⟨i, List.mem_cons_self _ _, hpe, ?_⟩
      have h0 : itemsQtySum rest pid = 0 :=
        itemsQtySum_of_not_mem _ _ (by rw [← hpe]; exact h.1)
      rw [itemsQtySum_cons, if_pos hpe, h0, add_zero]
    · rcases ih h.2 with h0 | ⟨j, hj, hje, hq⟩
      · left; rw [itemsQtySum_cons, if_neg hpe, h0, zero_add]
      · right
        exact ⟨j, List.mem_cons_of_mem _ hj, hje, by
          rw [itemsQtySum_cons, if_neg hpe, zero_add, hq]⟩

/-- A successful run of the pricing loop returns the accumulator plus the
submission-order sum of `price * quantity`. -/
theorem validateItems_ok_sum (products : List Product) :
    ∀ (items : List OrderItemCreate) (acc t : Rat),
      validateItems products acc items = .ok t → t = acc + itemsTotal products items := by
  intro items
  induction items with
  | nil =>
    intro acc t h
    simp [validateItems] at h
    simp [itemsTotal, ← h]
  | cons i rest ih =>
    intro acc t h
    simp only [validateItems] at h
    cases hf : findProduct products i.product_id with
    | none => simp only [hf] at h; exact absurd h (by simp)
    | some p =>
      simp only [hf] at h
      by_cases hs : p.stock_quantity < i.quantity
      · rw [if_pos hs] at h; exact absurd h (by simp)
      · rw [if_neg hs] at h
        rw [ih _ _ h]
        simp only [itemsTotal, List.map_cons, List.sum_cons, priceOf, hf]
        ring

/-- A successful run of the pricing loop certifies, for every line item,
a present product with sufficient stock. -/
theorem validateItems_ok_checks (products : List Product) :
    ∀ (items : List OrderItemCreate) (acc t : Rat),
      validateItems products acc items = .ok t →
      ∀ i ∈ items, ∃ p, findProduct products i.product_id = some p
          ∧ ¬ p.stock_quantity < i.quantity := by
  intro items
  induction items with
  | nil => intro acc t _ i hi; cases hi
  | cons j rest ih =>
    intro acc t h i hi
    simp only [validateItems] at h
    cases hf : findProduct products j.product_id with
    | none => simp only [hf] at h; exact absurd h (by simp)
    | some p =>
      simp only [hf] at h
      by_cases hs : p.stock_quantity < j.quantity
      · rw [if_pos hs] at h; exact absurd h (by simp)
      · rw [if_neg hs] at h
        rcases List.mem_cons.mp hi with rfl | hi'
        · exact ⟨p, hf, hs⟩
        · exact ih _ _ h i hi'

/-- An error of the pricing loop is either a product-not-found naming a
submitted item's missing product, or an insufficient-stock witnessed by a
submitted item. -/
theorem validateItems_error_spec (products : List Product) :
    ∀ (items : List OrderItemCreate) (acc : Rat) (e : OrderError),
      validateItems products acc items = .error e →
      (∃ i ∈ items, e = .productNotFound i.product_id
          ∧ findProduct products i.product_id = none)
      ∨ (e = .insufficientStock ∧ ∃ i ∈ items, ∃ p,
          findProduct products i.product_id = some p ∧ p.stock_quantity < i.quantity) := by
  intro items
  induction items with
  | nil => intro acc e h; simp [validateItems] at h
  | cons j rest ih =>
    intro acc e h
    simp only [validateItems] at h
    cases hf : findProduct products j.product_id with
    | none =>
      simp only [hf] at h
      injection h with he
      exact Or.inl ⟨j, List.mem_cons_self _ _, he.symm, hf⟩
    | some p =>
      simp only [hf] at h
      by_cases hs : p.stock_quantity < j.quantity
      · rw [if_pos hs] at h
        injection h with he
        exact Or.inr ⟨he.symm, j, List.mem_cons_self _ _, p, hf, hs⟩
      · rw [if_neg hs] at h
        rcases ih _ _ h with ⟨i, hi, he, hfnd⟩ | ⟨he, i, hi, p', hfp, hsp⟩
        · exact Or.inl ⟨i, List.mem_cons_of_mem _ hi, he, hfnd⟩
        · exact Or.inr ⟨he, i, List.mem_cons_of_mem _ hi, p', hfp, hsp⟩

/-- When some submitted item has a missing product or insufficient stock,
the pricing loop rejects. -/
theorem validateItems_error_exists (products : List Product) :
    ∀ (items : List OrderItemCreate) (acc : Rat),
      (∃ i ∈ items, findProduct products i.product_id = none
        ∨ ∃ p, findProduct products i.product_id = some p
            ∧ p.stock_quantity < i.quantity) →
      ∃ e, validateItems products acc items = .error e := by
  intro items
  induction items with
  | nil => intro acc hex; obtain ⟨i, hi, _⟩ := hex; cases hi
  | cons j rest ih =>
    intro acc hex
    obtain ⟨i, hi, hbad⟩ := hex
    cases hf : findProduct products j.product_id with
    | none => exact ⟨.productNotFound j.product_id, by simp [validateItems, hf]⟩
    | some p =>
      by_cases hs : p.stock_quantity < j.quantity
      · exact ⟨.insufficientStock, by simp [validateItems, hf, hs]⟩
      · have hi' : i ∈ rest := by
          rcases List.mem_cons.mp hi with rfl | hr
          · rcases hbad with hn | ⟨p', hp', hs'⟩
            · rw [hf] at hn; exact absurd hn (by simp)
            · rw [hf] at hp'
              injection hp' with hpe
              subst hpe
              exact absurd hs' hs
          · exact hr
        obtain ⟨e, he⟩ := ih (acc + p.price * (j.quantity : Rat)) ⟨i, hi', hbad⟩
        refine ⟨e, ?_⟩
        simp only [validateItems, hf, if_neg hs]
        exact he

/-- The stock-adjustment loop subtracts, from every product, the total
quantity the submitted items order of it (a product may be hit several
times when items repeat a product id). -/
theorem decrementAll_eq :
    ∀ (items : List OrderItemCreate) (products : List Product),
      decrementAll products items = products.map
        (fun p => { p with stock_quantity := p.stock_quantity - itemsQtySum items p.id }) := by
  intro items
  induction items with
  | nil =>
    intro products
    have hid : ∀ p : Product,
        ({ p with stock_quantity := p.stock_quantity - itemsQtySum [] p.id }) = p := by
      intro p; cases p; simp [itemsQtySum]
    simp [decrementAll, hid]
  | cons i rest ih =>
    intro products
    have step : decrementAll products (i :: rest)
        = decrementAll (decrementStock products i.product_id i.quantity) rest := rfl
    rw [step, ih, decrementStock, List.map_map]
    have hfun : ∀ p : Product,
        ((fun p => { p with stock_quantity := p.stock_quantity - itemsQtySum rest p.id }) ∘
          (fun p => if p.id = i.product_id
            then { p with stock_quantity := p.stock_quantity - i.quantity } else p)) p
        = { p with stock_quantity := p.stock_quantity - itemsQtySum (i :: rest) p.id } := by
      intro p
      by_cases hpe : p.id = i.product_id
      · have hpe' : i.product_id = p.id := hpe.symm
        simp only [Function.comp, if_pos hpe, itemsQtySum_cons, if_pos hpe']
        cases p
        simp only [Product.mk.injEq, and_true, true_and]
        omega
      · have hpe' : ¬ i.product_id = p.id := fun he => hpe he.symm
        simp only [Function.comp, if_neg hpe, itemsQtySum_cons, if_neg hpe', zero_add]
    exact List.map_congr_left (fun p _ => hfun p)

/-- Shape of a successful `create_order` run: the user was found, the
pricing loop succeeded, the created order is the fresh row, the commit
trace is the repository commit followed by the post-decrement commit. -/
theorem createOrder_ok_elim {sess : Session} {now : Nat} {d : OrderCreate}
    {s : Session} {o : Order} {T : List Store}
    (h : createOrder sess now d = (.ok (s, o), T)) :
    ∃ u t, findUser sess.mem.users d.user_id = some u
      ∧ validateItems sess.mem.products 0 d.items = .ok t
      ∧ o = freshOrder d sess.nextId now
      ∧ T = [firstCommit sess now d, s.mem]
      ∧ s.mem = { firstCommit sess now d with
            products := decrementAll sess.mem.products d.items }
      ∧ s.nextId = sess.nextId + 1 + d.items.length := by
  unfold createOrder at h
  cases hu : findUser sess.mem.users d.user_id with
  | none => rw [hu] at h; exact absurd h (by simp)
  | some u =>
    rw [hu] at h
    cases hv : validateItems sess.mem.products 0 d.items with
    | error e => rw [hv] at h; exact absurd h (by simp)
    | ok t =>
      rw [hv] at h
      simp only [orderRepoCreate, Prod.mk.injEq, Except.ok.injEq] at h
      obtain ⟨⟨hs, ho⟩, hT⟩ := h
      subst ho; subst hs; subst hT
      exact ⟨u, t, rfl, rfl, rfl, rfl, rfl, rfl⟩

/-- A product read's returned value always comes from the Entity Store. -/
theorem productGetById_fst (S : Store) (cache : String → Option ProductResponse)
    (product_id : String) :
    (productGetById S cache product_id).1 = findProduct S.products product_id := by
  cases hc : cache (productCachePrefix ++ product_id) with
  | none => cases hf : findProduct S.products product_id <;>
      simp [productGetById, hc, hf]
  | some r => cases hf : findProduct S.products product_id <;>
      simp [productGetById, hc, hf]

/-- A user read's returned value always comes from the Entity Store. -/
theorem userGetById_fst (S : Store) (user_id : String) :
    (userGetById S user_id).1 = findUser S.users user_id := by
  cases hf : findUser S.users user_id <;> simp [userGetById, hf]

/-! ## Claim theorems -/

/-- C6: for every cache operation and every injected failure (timeout,
connection error, transport error, malformed stored payload,
unserializable record), the cache component returns its graceful
fallback instead of letting an exception escape: `get` and `get_model`
return absent, `set`, `set_model` and `delete` return the failure
outcome, and a deserialization failure on `get_model` yields the same
absent outcome as a cache miss. -/
theorem cache_failures_never_escape {α : Type} (c : RedisClient) (key value : String)
    (ttl : Nat) (parse : String → Option α) (ser : α → Option String) (m : α) :
    ((c.getRaw key).isFailure = true → CacheService.get c key = none)
  ∧ ((c.setexRaw key ttl value).isFailure = true →
      CacheService.set c key value ttl = false)
  ∧ ((c.deleteRaw key).isFailure = true → CacheService.delete c key = false)
  ∧ ((c.getRaw key).isFailure = true → CacheService.get_model c parse key = none)
  ∧ (ser m = none → CacheService.set_model c ser key m ttl = false)
  ∧ (∀ s, c.getRaw key = .ok (some s) → parse s = none →
      CacheService.get_model c parse key = none)
  ∧ (CacheService.get c key = none → CacheService.get_model c parse key = none) := by
  refine ⟨?_, ?_, ?_, ?_, ?_, ?_, ?_⟩
  · intro h
    cases hg : c.getRaw key <;>
      simp [CacheService.get, hg, RedisOutcome.isFailure] at h ⊢
  · intro h
    cases hg : c.setexRaw key ttl value <;>
      simp [CacheService.set, hg, RedisOutcome.isFailure] at h ⊢
  · intro h
    cases hg : c.deleteRaw key <;>
      simp [CacheService.delete, hg, RedisOutcome.isFailure] at h ⊢
  · intro h
    cases hg : c.getRaw key <;>
      simp [CacheService.get_model, CacheService.get, hg, RedisOutcome.isFailure] at h ⊢
  · intro h
    simp [CacheService.set_model, h]
  · intro s hg hp
    cases he : s.isEmpty <;>
      simp [CacheService.get_model, CacheService.get, hg, he, hp]
  · intro h
    simp [CacheService.get_model, h]

/-- Witness for C6 at a concrete all-failing client and a concrete
malformed-payload client. -/
theorem cache_failures_never_escape_witness :
    CacheService.get failClient "k" = none
  ∧ CacheService.set failClient "k" "v" 60 = false
  ∧ CacheService.delete failClient "k" = false
  ∧ CacheService.get_model failClient (fun _ => (none : Option Nat)) "k" = none
  ∧ CacheService.set_model failClient (fun _ => (none : Option String)) "k" (0 : Nat) 60
      = false
  ∧ CacheService.get_model malformedClient (fun _ => (none : Option Nat)) "k" = none := by
  obtain ⟨h1, h2, h3, h4, h5, _, _⟩ :=
    cache_failures_never_escape (α := Nat) failClient "k" "v" 60 (fun _ => none)
      (fun _ => none) 0
  obtain ⟨_, _, _, _, _, h6, _⟩ :=
    cache_failures_never_escape (α := Nat) malformedClient "k" "v" 60 (fun _ => none)
      (fun _ => none) 0
  exact ⟨h1 rfl, h2 rfl, h3 rfl, h4 rfl, h5 rfl, h6 "not-json" rfl rfl⟩

/-- C10: the entity a service read returns equals what the Entity Store
returns for that id, whatever the cache holds — two runs differing only
in cache contents return the same result; the cache influences only side
effects. -/
theorem read_result_independent_of_cache (S : Store)
    (cache cache' : String → Option ProductResponse) (product_id user_id : String) :
    (productGetById S cache product_id).1 = findProduct S.products product_id
  ∧ (productGetById S cache product_id).1 = (productGetById S cache' product_id).1
  ∧ (userGetById S user_id).1 = findUser S.users user_id :=
  ⟨productGetById_fst S cache product_id,
    (productGetById_fst S cache product_id).trans
      (productGetById_fst S cache' product_id).symm,
    userGetById_fst S user_id⟩

/-- C8: after a successful store update, the user service deletes the
cache entry for the id (never overwrites it in place) while the product
service overwrites the entry with the new value (never deletes it); the
cache action follows the store update in the interaction trace, and a
failed store update performs no cache action at all. -/
theorem update_cache_policy (users : List User) (products : List Product)
    (user_id product_id : String) (du : UserUpdate) (dp : ProductUpdate) (now : Nat) :
    (userServiceUpdate users user_id du now).2
      = .storeUpdate user_id ::
          (match userRepoUpdate users user_id du now with
            | some _ => [WriteEvent.cacheDelete (userCachePrefix ++ user_id)]
            | none => [])
  ∧ (productServiceUpdate products product_id dp now).2
      = .storeUpdate product_id ::
          (match productRepoUpdate products product_id dp now with
            | some _ => [WriteEvent.cacheSet (productCachePrefix ++ product_id)]
            | none => []) := by
  constructor
  · cases h : userRepoUpdate users user_id du now <;> simp [userServiceUpdate, h]
  · cases h : productRepoUpdate products product_id dp now <;> simp [productServiceUpdate, h]

/-- C5 counterexample: on a product read the very first interaction is a
cache read — the Entity Store is not read first and the cache is not
touched only as a write target — and on a store-absent product read a
cache interaction (the initial cache get) has still occurred. -/
theorem product_read_cache_first_cex :
    (productGetById demoStore demoCache "p1").2.head?
      = some (ReadEvent.cacheGet "product:p1")
  ∧ (productGetById demoStore demoCache "missing").1 = none
  ∧ ReadEvent.cacheGet "product:missing"
      ∈ (productGetById demoStore demoCache "missing").2 := by
  decide

/-- C5 (amended): for User reads the claim holds as stated — the Entity
Store is read first, the cache is touched only afterwards as a write
target, and an absent user causes no cache interaction at all; for
Product reads the cache is instead consulted first, as a read, before
the store, but the returned value still always comes from the store, and
when the store returns absent no cache write occurs (only the initial
cache read has). -/
theorem read_path_cache_policy (S : Store) (cache : String → Option ProductResponse)
    (user_id product_id : String) :
    (userGetById S user_id).2.head? = some (ReadEvent.storeGet user_id)
  ∧ (findUser S.users user_id = none →
      (userGetById S user_id).2 = [ReadEvent.storeGet user_id])
  ∧ (∀ u, findUser S.users user_id = some u →
      (userGetById S user_id).2
        = [ReadEvent.storeGet user_id, ReadEvent.cacheSet (userCachePrefix ++ user_id)])
  ∧ (productGetById S cache product_id).2.head?
      = some (ReadEvent.cacheGet (productCachePrefix ++ product_id))
  ∧ (findProduct S.products product_id = none →
      ReadEvent.cacheSet (productCachePrefix ++ product_id)
        ∉ (productGetById S cache product_id).2)
  ∧ (productGetById S cache product_id).1 = findProduct S.products product_id := by
  refine ⟨?_, ?_, ?_, ?_, ?_, productGetById_fst S cache product_id⟩
  · cases hf : findUser S.users user_id <;> simp [userGetById, hf]
  · intro h; simp [userGetById, h]
  · intro u hu; simp [userGetById, hu]
  · cases hc : cache (productCachePrefix ++ product_id) with
    | none => cases hf : findProduct S.products product_id <;>
        simp [productGetById, hc, hf]
    | some r => cases hf : findProduct S.products product_id <;>
        simp [productGetById, hc, hf]
  · intro h
    cases hc : cache (productCachePrefix ++ product_id) <;>
      simp [productGetById, hc, h]

/-- Witness for the amended C5 at concrete stores and ids. -/
theorem read_path_cache_policy_witness :
    (userGetById demoStore "missing").2 = [ReadEvent.storeGet "missing"]
  ∧ (userGetById demoStore "u1").2
      = [ReadEvent.storeGet "u1", ReadEvent.cacheSet "user:u1"]
  ∧ ReadEvent.cacheSet "product:missing"
      ∉ (productGetById demoStore demoCache "missing").2 := by
  obtain ⟨_, h2, _, _, h5, _⟩ :=
    read_path_cache_policy demoStore demoCache "missing" "missing"
  obtain ⟨_, _, h3, _, _, _⟩ :=
    read_path_cache_policy demoStore demoCache "u1" "x"
  exact ⟨h2 (by decide), h3 demoUser (by decide), h5 (by decide)⟩

/-- C9: a line item with non-positive quantity against a product with
non-negative stock is not rejected by the workflow: the sufficiency
check passes trivially, the item contributes `price * quantity` (zero or
negative) to the accumulated total, and the order is created. -/
theorem nonpositive_quantity_not_rejected (sess : Session) (now : Nat)
    (user_id addr pid : String) (q : Int) (u : User) (p : Product)
    (hu : findUser sess.mem.users user_id = some u)
    (hp : findProduct sess.mem.products pid = some p)
    (hstock : 0 ≤ p.stock_quantity) (hq : q ≤ 0) :
    validateItems sess.mem.products 0 [⟨pid, q⟩] = .ok (p.price * (q : Rat))
  ∧ ∃ s o, (createOrder sess now ⟨user_id, addr, [⟨pid, q⟩]⟩).1 = .ok (s, o)
      ∧ s.mem.orders = sess.mem.orders ++ [o] := by
  have hnl : ¬ p.stock_quantity < q := not_lt.mpr (hq.trans hstock)
  have hval : validateItems sess.mem.products 0 [⟨pid, q⟩] = .ok (p.price * (q : Rat)) := by
    simp [validateItems, hp, hnl]
  have hrun : (createOrder sess now ⟨user_id, addr, [⟨pid, q⟩]⟩).1
      = .ok ({ mem := { firstCommit sess now ⟨user_id, addr, [⟨pid, q⟩]⟩ with
                products := decrementAll sess.mem.products [⟨pid, q⟩] }
               nextId := sess.nextId + 1 + 1 },
             freshOrder ⟨user_id, addr, [⟨pid, q⟩]⟩ sess.nextId now) := by
    unfold createOrder
    rw [hu, hval]
    rfl
  exact ⟨hval, _, _, hrun, rfl⟩

/-- Witness for C9: ordering minus two Widgets succeeds with a negative
contribution to the total. -/
theorem nonpositive_quantity_not_rejected_witness :
    validateItems demoSess.mem.products 0 [⟨"p1", -2⟩] = .ok (-20)
  ∧ ∃ s o, (createOrder demoSess 0 negReq).1 = .ok (s, o)
      ∧ s.mem.orders = demoSess.mem.orders ++ [o] := by
  obtain ⟨h1, h2⟩ := nonpositive_quantity_not_rejected demoSess 0 "u1" "a1" "p1" (-2)
    demoUser demoProduct (by decide) (by decide) (by decide) (by decide)
  refine ⟨?_, h2⟩
  rw [h1]
  norm_num [demoProduct]

/-- C1: whenever validation fails — the user id unknown, some item's
product id unknown, or some product's stock below the item's quantity —
`create_order` raises a typed rejection distinguishing the three cases
(the product case naming a submitted missing product id), commits
nothing, and leaves the store entirely unchanged. -/
theorem create_order_rejection (sess : Session) (now : Nat) (d : OrderCreate)
    (hbad : findUser sess.mem.users d.user_id = none
      ∨ (∃ i ∈ d.items, findProduct sess.mem.products i.product_id = none)
      ∨ (∃ i ∈ d.items, ∃ p, findProduct sess.mem.products i.product_id = some p
          ∧ p.stock_quantity < i.quantity)) :
    ∃ e, createOrder sess now d = (.error e, [])
      ∧ (e = .userNotFound d.user_id → findUser sess.mem.users d.user_id = none)
      ∧ (∀ pid, e = .productNotFound pid →
          findProduct sess.mem.products pid = none ∧ ∃ i ∈ d.items, i.product_id = pid)
      ∧ (e = .insufficientStock → ∃ i ∈ d.items, ∃ p,
          findProduct sess.mem.products i.product_id = some p
            ∧ p.stock_quantity < i.quantity) := by
  cases hu : findUser sess.mem.users d.user_id with
  | none =>
    refine ⟨.userNotFound d.user_id, ?_, fun _ => rfl, ?_, ?_⟩
    · simp [createOrder, hu]
    · intro pid h; exact absurd h (by simp)
    · intro h; exact absurd h (by simp)
  | some u =>
    have hitems : ∃ i ∈ d.items, findProduct sess.mem.products i.product_id = none
        ∨ ∃ p, findProduct sess.mem.products i.product_id = some p
            ∧ p.stock_quantity < i.quantity := by
      rcases hbad with h | h | h
      · rw [hu] at h; exact absurd h (by simp)
      · obtain ⟨i, hi, hn⟩ := h; exact ⟨i, hi, Or.inl hn⟩
      · obtain ⟨i, hi, p, hp, hs⟩ := h; exact ⟨i, hi, Or.inr ⟨p, hp, hs⟩⟩
    obtain ⟨e, he⟩ := validateItems_error_exists sess.mem.products d.items 0 hitems
    refine ⟨e, ?_, ?_, ?_, ?_⟩
    · simp [createOrder, hu, he]
    · intro hee
      rcases validateItems_error_spec _ _ _ _ he with ⟨i, _, hei, _⟩ | ⟨hei, _⟩ <;>
        exact absurd (hei.symm.trans hee) (by simp)
    · intro pid hee
      rcases validateItems_error_spec _ _ _ _ he with ⟨i, hi, hei, hn⟩ | ⟨hei, _⟩
      · have hip : i.product_id = pid := by
          rw [hee] at hei
          injection hei with h'
          exact h'.symm
        subst hip
        exact ⟨hn, i, hi, rfl⟩
      · exact absurd (hei.symm.trans hee) (by simp)
    · intro hee
      rcases validateItems_error_spec _ _ _ _ he with ⟨i, _, hei, _⟩ | ⟨_, hw⟩
      · exact absurd (hei.symm.trans hee) (by simp)
      · exact hw

/-- Witness for C1: an order naming an unknown user is rejected with no
commit. -/
theorem create_order_rejection_witness :
    ∃ e, createOrder demoSess 0 ghostReq = (.error e, []) := by
  obtain ⟨e, he, _⟩ := create_order_rejection demoSess 0 ghostReq (Or.inl (by decide))
  exact ⟨e, he⟩

/-- One repository item row per submitted line item. -/
theorem itemRows_length (oid : String) (now : Nat) :
    ∀ (items : List OrderItemCreate) (k : Nat),
      (itemRows oid now items k).length = items.length := by
  intro items
  induction items with
  | nil => intro k; rfl
  | cons i rest ih => intro k; simp [itemRows, ih]

/-- C2 counterexample: the valid two-unit demo order produces TWO
committed snapshots, and the first — the Order Store's own commit —
already holds the order row and its item row while the product's stock
is still 5: a durable intermediate state with the order and items
present but the decrement unapplied. -/
theorem order_intermediate_commit_cex :
    (createOrder demoSess 0 demoReq).2.map
        (fun s => (s.orders.length, s.order_items.length,
          s.products.map Product.stock_quantity))
      = [(1, 1, [5]), (1, 1, [3])] := by
  decide

/-- C2 (amended): a successful placement commits twice: the Order
Store's commit makes the order row and ALL its item rows durable
together, with every stock untouched, and only the second, final commit
makes the stock decrements durable — so a durable intermediate state
holding the order and its items without the decrements exists between
the two; the order and its items are never committed separately from
each other. -/
theorem create_order_commit_phases (sess : Session) (now : Nat) (d : OrderCreate)
    (s : Session) (o : Order) (T : List Store)
    (h : createOrder sess now d = (.ok (s, o), T)) :
    ∃ S1, T = [S1, s.mem]
      ∧ S1.orders = sess.mem.orders ++ [o]
      ∧ S1.order_items
          = sess.mem.order_items ++ itemRows o.id now d.items (sess.nextId + 1)
      ∧ (itemRows o.id now d.items (sess.nextId + 1)).length = d.items.length
      ∧ S1.products = sess.mem.products
      ∧ s.mem = { S1 with products := decrementAll S1.products d.items } := by
  obtain ⟨u, t, hu, hv, ho, hT, hmem, hnext⟩ := createOrder_ok_elim h
  refine ⟨firstCommit sess now d, hT, ?_, ?_, itemRows_length o.id now d.items _, rfl, ?_⟩
  · rw [ho]; rfl
  · rw [ho]; rfl
  · rw [hmem]; rfl

/-- Witness for the amended C2 at the concrete demo order. -/
theorem create_order_commit_phases_witness :
    [demoS1, demoS2] = [demoS1, demoS2]
  ∧ demoS1.orders = demoSess.mem.orders ++ [demoOrder]
  ∧ demoS1.products = demoSess.mem.products := by
  obtain ⟨S1, hT, ho, _, _, hp, _⟩ :=
    create_order_commit_phases demoSess 0 demoReq ⟨demoS2, 2⟩ demoOrder
      [demoS1, demoS2] rfl
  have hS1 : S1 = demoS1 := by
    have := congrArg (fun l => l.head?) hT
    simpa using this.symm
  rw [← hS1]
  exact ⟨rfl, ho, hp⟩

/-- C3 counterexample: two runs over stores differing only in the
product's price (accumulated totals 20 versus 30) persist IDENTICAL
order rows — `OrderRepository.create` drops its `total_amount` argument
— so no reading of the persisted order row equals the accumulated total
in both runs: the persisted order records no total. -/
theorem persisted_order_total_cex :
    (createOrder demoSess 0 demoReq).1 = .ok (⟨demoS2, 2⟩, demoOrder)
  ∧ (createOrder demoSessB 0 demoReq).1 = .ok (⟨demoS2B, 2⟩, demoOrder)
  ∧ validateItems demoSess.mem.products 0 demoReq.items = .ok 20
  ∧ validateItems demoSessB.mem.products 0 demoReq.items = .ok 30
  ∧ ¬ ∃ f : Order → Rat, f demoOrder = 20 ∧ f demoOrder = 30 := by
  refine ⟨rfl, rfl, ?_, ?_, ?_⟩
  · norm_num [validateItems, findProduct, demoProduct, demoSess, demoStore, demoReq]
  · norm_num [validateItems, findProduct, demoProductB, demoSessB, demoReq]
  · rintro ⟨f, h1, h2⟩
    exact absurd (h1.symm.trans h2) (by norm_num)

/-- C3 (amended): for a placement that passes validation, the total the
workflow accumulates (and hands to the Order Store) equals the
submission-order sum of `price * quantity`; every product's stock is
decremented by the total quantity the order's items request of it (the
item's own quantity when product ids are distinct); the order row is
appended — but the Order Store discards the handed total (its result
does not depend on it), so the persisted order row records no total. -/
theorem create_order_total_and_stock (sess : Session) (now : Nat) (d : OrderCreate)
    (s : Session) (o : Order) (T : List Store)
    (h : createOrder sess now d = (.ok (s, o), T)) :
    validateItems sess.mem.products 0 d.items
      = .ok (itemsTotal sess.mem.products d.items)
  ∧ s.mem.products = sess.mem.products.map
      (fun p => { p with stock_quantity := p.stock_quantity - itemsQtySum d.items p.id })
  ∧ s.mem.orders = sess.mem.orders ++ [o]
  ∧ (∀ t t' : Rat, orderRepoCreate sess.mem d t sess.nextId now
      = orderRepoCreate sess.mem d t' sess.nextId now) := by
  obtain ⟨u, t, hu, hv, ho, hT, hmem, hnext⟩ := createOrder_ok_elim h
  have ht : t = itemsTotal sess.mem.products d.items := by
    have := validateItems_ok_sum sess.mem.products d.items 0 t hv
    simpa using this
  refine ⟨ht ▸ hv, ?_, ?_, fun t t' => rfl⟩
  · rw [hmem]
    show decrementAll sess.mem.products d.items = _
    exact decrementAll_eq d.items sess.mem.products
  · rw [hmem, ho]; rfl

/-- Witness for the amended C3: five-of-five succeeds with accumulated
total 50 and final stock 0; the empty order succeeds with accumulated
total 0 and still appends its order row. -/
theorem create_order_total_and_stock_witness :
    validateItems demoSess.mem.products 0 fiveReq.items
      = .ok (itemsTotal demoSess.mem.products fiveReq.items)
  ∧ itemsTotal demoSess.mem.products fiveReq.items = 50
  ∧ fiveS2.products.map Product.stock_quantity = [0]
  ∧ validateItems demoSess.mem.products 0 emptyReq.items
      = .ok (itemsTotal demoSess.mem.products emptyReq.items)
  ∧ itemsTotal demoSess.mem.products emptyReq.items = 0
  ∧ emptyS1.orders = demoSess.mem.orders ++ [demoOrder] := by
  obtain ⟨hv5, _, _, _⟩ := create_order_total_and_stock demoSess 0 fiveReq ⟨fiveS2, 2⟩
    demoOrder [fiveS1, fiveS2] rfl
  obtain ⟨hv0, _, ho0, _⟩ := create_order_total_and_stock demoSess 0 emptyReq
    ⟨emptyS1, 1⟩ demoOrder [emptyS1, emptyS1] rfl
  refine ⟨hv5, ?_, by decide, hv0, ?_, ho0⟩
  · norm_num [itemsTotal, priceOf, findProduct, demoProduct, demoSess, demoStore, fiveReq]
  · simp [itemsTotal, emptyReq]

/-- C4 counterexample: one sequentially executed placement whose two line
items name the same product (3 + 3 against stock 5) passes validation —
each sufficiency check runs against the pre-order stock — and drives the
committed stock to -1. -/
theorem stock_invariant_cex :
    demoSess.mem.products.map Product.stock_quantity = [5]
  ∧ (createOrder demoSess 0 dupReq).2.length = 2
  ∧ (runOrders demoSess 0 [dupReq]).mem.products.map Product.stock_quantity = [-1] := by
  decide

/-- One sequential placement preserves the product-id set and, when its
line items carry pairwise-distinct product ids, non-negativity of every
stock. -/
theorem runOrder_step (sess : Session) (now : Nat) (d : OrderCreate)
    (hids : (sess.mem.products.map Product.id).Nodup)
    (hnn : ∀ p ∈ sess.mem.products, 0 ≤ p.stock_quantity)
    (hdist : (d.items.map OrderItemCreate.product_id).Nodup) :
    ((runOrder sess now d).mem.products.map Product.id
        = sess.mem.products.map Product.id)
  ∧ ∀ p ∈ (runOrder sess now d).mem.products, 0 ≤ p.stock_quantity := by
  cases hc : (createOrder sess now d).1 with
  | error e =>
    have hrun : runOrder sess now d = sess := by unfold runOrder; rw [hc]
    rw [hrun]
    exact ⟨rfl, hnn⟩
  | ok so =>
    obtain ⟨s, o⟩ := so
    have hrun : runOrder sess now d = s := by unfold runOrder; rw [hc]
    have h : createOrder sess now d = (.ok (s, o), (createOrder sess now d).2) :=
      Prod.ext hc rfl
    obtain ⟨u, t, hu, hv, ho, hT, hmem, hnext⟩ := createOrder_ok_elim h
    have hprod : s.mem.products = sess.mem.products.map
        (fun p => { p with stock_quantity := p.stock_quantity - itemsQtySum d.items p.id }) := by
      rw [hmem]
      show decrementAll sess.mem.products d.items = _
      exact decrementAll_eq d.items sess.mem.products
    rw [hrun]
    constructor
    · rw [hprod, List.map_map]
      rfl
    · intro pfinal hpf
      rw [hprod] at hpf
      obtain ⟨p, hpmem, rfl⟩ := List.mem_map.mp hpf
      show 0 ≤ p.stock_quantity - itemsQtySum d.items p.id
      rcases itemsQtySum_nodup d.items p.id hdist with h0 | ⟨i, hi, hip, hq⟩
      · rw [h0]
        have := hnn p hpmem
        omega
      · obtain ⟨p', hp', hs'⟩ := validateItems_ok_checks sess.mem.products d.items 0 t hv i hi
        rw [hip] at hp'
        rw [findProduct_self sess.mem.products hids p hpmem] at hp'
        injection hp' with hpp
        rw [hq, hpp]
        omega

/-- C4 (amended): with non-negative starting stocks, duplicate-free
product ids in the store, and pairwise-distinct product ids within each
placement's line items, every sequence of sequentially executed order
placements keeps every stock_quantity non-negative (each decrement is
justified by that item's own sufficiency check); the distinctness
condition is forced by the counterexample, where duplicate items in one
order are each checked against the pre-order stock. -/
theorem stock_nonneg_preserved (sess : Session) (now : Nat) (reqs : List OrderCreate)
    (hids : (sess.mem.products.map Product.id).Nodup)
    (hnn : ∀ p ∈ sess.mem.products, 0 ≤ p.stock_quantity)
    (hdist : ∀ d ∈ reqs, (d.items.map OrderItemCreate.product_id).Nodup) :
    ∀ p ∈ (runOrders sess now reqs).mem.products, 0 ≤ p.stock_quantity := by
  induction reqs generalizing sess with
  | nil => exact hnn
  | cons d rest ih =>
    have hstep := runOrder_step sess now d hids hnn (hdist d (List.mem_cons_self _ _))
    have hids' : ((runOrder sess now d).mem.products.map Product.id).Nodup := by
      rw [hstep.1]; exact hids
    exact ih (runOrder sess now d) hids' hstep.2
      (fun d' hd' => hdist d' (List.mem_cons_of_mem _ hd'))

/-- Witness for the amended C4: two sequential two-unit orders keep the
demo stock non-negative. -/
theorem stock_nonneg_preserved_witness :
    (runOrders demoSess 0 [demoReq, demoReq]).mem.products.all
      (fun p => decide (0 ≤ p.stock_quantity)) = true := by
  rw [List.all_eq_true]
  intro p hp
  rw [decide_eq_true_eq]
  exact stock_nonneg_preserved demoSess 0 [demoReq, demoReq] (by decide) (by decide)
    (by decide) p hp

/-- C7 counterexample: updating only the username also changes
`updated_at` (the ORM bumps it on commit, models.py `onupdate`), a field
not present in the partial — so the update does not leave every other
field equal to its prior value. -/
theorem merge_patch_update_cex :
    (userRepoUpdate [demoUser] "u1" ⟨some "bob", none, none⟩ 1).map
        (fun r => (r.2.username, r.2.updated_at))
      = some ("bob", 1)
  ∧ demoUser.updated_at = 0 := by
  decide

/-- C7 (amended): `update` returns absent for a missing id; an all-unset
partial returns the entity unchanged as a success; otherwise exactly the
fields explicitly present in the partial are set, PLUS the `updated_at`
timestamp, which the commit bumps to the current clock — every remaining
field keeps its prior value and rows with other ids are untouched. -/
theorem merge_patch_update_frame (users : List User) (products : List Product)
    (user_id product_id : String) (du : UserUpdate) (dp : ProductUpdate) (now : Nat) :
    (findUser users user_id = none → userRepoUpdate users user_id du now = none)
  ∧ (∀ u, findUser users user_id = some u → du.isEmpty = true →
      userRepoUpdate users user_id du now = some (users, u))
  ∧ (∀ u, findUser users user_id = some u → du.isEmpty = false →
      ∃ u', userRepoUpdate users user_id du now
          = some (users.map (fun v => if v.id = user_id then u' else v), u')
        ∧ u'.id = u.id
        ∧ u'.username = du.username.getD u.username
        ∧ u'.email = du.email.getD u.email
        ∧ u'.description = du.description.getD u.description
        ∧ u'.created_at = u.created_at
        ∧ u'.updated_at = now)
  ∧ (findProduct products product_id = none →
      productRepoUpdate products product_id dp now = none)
  ∧ (∀ p, findProduct products product_id = some p → dp.isEmpty = true →
      productRepoUpdate products product_id dp now = some (products, p))
  ∧ (∀ p, findProduct products product_id = some p → dp.isEmpty = false →
      ∃ p', productRepoUpdate products product_id dp now
          = some (products.map (fun v => if v.id = product_id then p' else v), p')
        ∧ p'.id = p.id
        ∧ p'.name = dp.name.getD p.name
        ∧ p'.description = dp.description.getD p.description
        ∧ p'.price = dp.price.getD p.price
        ∧ p'.stock_quantity = dp.stock_quantity.getD p.stock_quantity
        ∧ p'.created_at = p.created_at
        ∧ p'.updated_at = now) := by
  refine ⟨?_, ?_, ?_, ?_, ?_, ?_⟩
  · intro h; simp [userRepoUpdate, h]
  · intro u hu he; simp [userRepoUpdate, hu, he]
  · intro u hu he
    refine ⟨{ u with
        username := du.username.getD u.username
        email := du.email.getD u.email
        description := du.description.getD u.description
        updated_at := now }, ?_, rfl, rfl, rfl, rfl, rfl, rfl⟩
    simp [userRepoUpdate, hu, he]
  · intro h; simp [productRepoUpdate, h]
  · intro p hp he; simp [productRepoUpdate, hp, he]
  · intro p hp he
    refine ⟨{ p with
        name := dp.name.getD p.name
        description := dp.description.getD p.description
        price := dp.price.getD p.price
        stock_quantity := dp.stock_quantity.getD p.stock_quantity
        updated_at := now }, ?_, rfl, rfl, rfl, rfl, rfl, rfl, rfl⟩
    simp [productRepoUpdate, hp, he]

/-- Witness for the amended C7 at concrete entities and partials. -/
theorem merge_patch_update_frame_witness :
    userRepoUpdate [demoUser] "missing" ⟨none, none, none⟩ 1 = none
  ∧ userRepoUpdate [demoUser] "u1" ⟨none, none, none⟩ 1 = some ([demoUser], demoUser)
  ∧ (userRepoUpdate [demoUser] "u1" ⟨some "bob", none, none⟩ 2).map
      (fun r => (r.2.username, r.2.email, r.2.updated_at))
      = some ("bob", "alice@example.com", 2)
  ∧ productRepoUpdate [demoProduct] "missing" ⟨none, none, none, none⟩ 1 = none
  ∧ productRepoUpdate [demoProduct] "p1" ⟨none, none, none, none⟩ 1
      = some ([demoProduct], demoProduct)
  ∧ (productRepoUpdate [demoProduct] "p1" ⟨none, none, none, some 7⟩ 2).map
      (fun r => (r.2.stock_quantity, r.2.price, r.2.updated_at))
      = some (7, 10, 2) := by
  obtain ⟨hu1, _, _, hp1, _, _⟩ := merge_patch_update_frame [demoUser] [demoProduct]
    "missing" "missing" ⟨none, none, none⟩ ⟨none, none, none, none⟩ 1
  obtain ⟨_, hu2, _, _, hp2, _⟩ := merge_patch_update_frame [demoUser] [demoProduct]
    "u1" "p1" ⟨none, none, none⟩ ⟨none, none, none, none⟩ 1
  obtain ⟨_, _, hu3, _, _, hp3⟩ := merge_patch_update_frame [demoUser] [demoProduct]
    "u1" "p1" ⟨some "bob", none, none⟩ ⟨none, none, none, some 7⟩ 2
  obtain ⟨u', hequ, _, hname, hemail, _, _, hua⟩ := hu3 demoUser (by decide) rfl
  obtain ⟨p', heqp, _, _, _, hprice, hstock, _, hpa⟩ := hp3 demoProduct (by decide) rfl
  refine ⟨hu1 (by decide), hu2 demoUser (by decide) rfl, ?_,
    hp1 (by decide), hp2 demoProduct (by decide) rfl, ?_⟩
  · rw [hequ]
    simp [hname, hemail, hua, demoUser]
  · rw [heqp]
    simp [hprice, hstock, hpa, demoProduct]

end LR
